import Mathlib

/-!
Verification of the message-ingestion subsystem of `src/message_ingest.py`
(with string/time helpers from `src/helpers.py`).

The Python code is shallowly embedded: pure functions become Lean functions on
`String` / `List Char`; the ambient wall clock that several functions read
(`helpers.utc_now_iso`, `time.time`) is passed as an explicit parameter
`nowUs : Nat`, the current UTC time in microseconds since the Unix epoch; the
network (HTTP responses, IRC socket chunks) is passed as explicit data.

Modelling notes, applying throughout:
* Python `str` is modelled by `String`/`List Char`; the ASCII fragment of
  `str.strip` / `str.lower` / `str.isdigit` is modelled (the code only ever
  meets ASCII protocol text; Unicode-only divergences are out of scope).
* Python dicts built by repeated assignment are modelled as insertion-ordered
  association lists whose lookup takes the *last* binding (assignment to an
  existing key overwrites it).
* `datetime.fromtimestamp(ms / 1000, tz=timezone.utc)` is modelled exactly at
  millisecond precision; for timestamps within `datetime`'s supported range up
  to about year 2106 the float division in the source is exact, which covers
  every input considered here.
-/

/-- Python `str.strip()` whitespace test (ASCII fragment). -/
def pyIsSpace (c : Char) : Bool :=
  c == ' ' || c == '\t' || c == '\n' || c == '\r' || c == '\x0b' || c == '\x0c'

/-- Python `str.strip()` on the character list: drop whitespace from both ends. -/
def pyStrip (l : List Char) : List Char :=
  ((l.dropWhile pyIsSpace).reverse.dropWhile pyIsSpace).reverse

/-- Python `str.strip()` on `String`. -/
def pyStripStr (s : String) : String :=
  ⟨pyStrip s.data⟩

/-- Python `str.lower()` (ASCII fragment). -/
def pyLowerStr (s : String) : String :=
  ⟨s.data.map Char.toLower⟩

/-- Python truthy-`or` on strings: `a or b` yields `b` when `a` is empty/absent. -/
def pyOrStr (a : Option String) (b : String) : String :=
  match a with
  | some s => if s = "" then b else s
  | none => b

/-- Python `a or None` on an optional string: empty strings collapse to `None`. -/
def pyOrNone (a : Option String) : Option String :=
  match a with
  | some s => if s = "" then none else some s
  | none => none

/-- Python `s.split(sep)` for a one-character separator (keeps empty pieces). -/
def splitOnChar (sep : Char) : List Char → List (List Char)
  | [] => [[]]
  | c :: rest =>
    if c = sep then
      [] :: splitOnChar sep rest
    else
      match splitOnChar sep rest with
      | [] => [[c]]
      | h :: t => (c :: h) :: t

/-- Python `s.split(sep, 1)` for a one-character separator: split at the first
occurrence, `none` when the separator is absent (`sep in s` is false). -/
def splitOnFirst (sep : Char) : List Char → Option (List Char × List Char)
  | [] => none
  | c :: rest =>
    if c = sep then some ([], rest)
    else (splitOnFirst sep rest).map (fun p => (c :: p.1, p.2))

/-- Python `s.split(pat, 1)` for a multi-character pattern: split at the first
occurrence of `pat`, `none` when `pat` does not occur. -/
def splitOnFirstSeq (pat : List Char) : List Char → Option (List Char × List Char)
  | [] => none
  | c :: rest =>
    if pat.isPrefixOf (c :: rest) then some ([], (c :: rest).drop pat.length)
    else (splitOnFirstSeq pat rest).map (fun p => (c :: p.1, p.2))

/-- Python `str.isdigit()` restricted to its ASCII fragment, combined with the
truthiness test of the source (`sent_ts_ms and sent_ts_ms.isdigit()`):
non-empty and all decimal digits. -/
def pyDigits (s : String) : Bool :=
  !s.data.isEmpty && s.data.all Char.isDigit

/-- Python `int(s)` for a decimal digit string. -/
def digitsToNat (s : String) : Nat :=
  s.data.foldl (fun a c => a * 10 + (c.toNat - 48)) 0

/-- The decimal digit character of `n % 10`. -/
def digitChar (n : Nat) : Char :=
  match n % 10 with
  | 0 => '0' | 1 => '1' | 2 => '2' | 3 => '3' | 4 => '4'
  | 5 => '5' | 6 => '6' | 7 => '7' | 8 => '8' | _ => '9'

/-- Decimal digits of `n`, most significant first (fuelled so that the kernel
can evaluate it; `fuel = n` always suffices). -/
def natDigitsAux : Nat → Nat → List Char → List Char
  | 0, n, acc => digitChar n :: acc
  | fuel + 1, n, acc =>
    if n < 10 then digitChar n :: acc
    else natDigitsAux fuel (n / 10) (digitChar n :: acc)

/-- Decimal rendering of a natural number, as Python `str(n)` / `"%d" % n`. -/
def natDigits (n : Nat) : List Char :=
  natDigitsAux n n []

/-- Decimal rendering of a natural number as a `String`. -/
def natStr (n : Nat) : String :=
  ⟨natDigits n⟩

/-- Zero-pad a digit list on the left to width `w` (Python `"%0*d"`). -/
def padDigits (w : Nat) (ds : List Char) : List Char :=
  List.replicate (w - ds.length) '0' ++ ds

/-- Proleptic-Gregorian civil date `(year, month, day)` from days since
1970-01-01, as computed by CPython's `datetime` for non-negative timestamps. -/
def civilFromDays (days : Nat) : Nat × Nat × Nat :=
  let z := days + 719468
  let era := z / 146097
  let doe := z % 146097
  let yoe := (doe - doe / 1460 + doe / 36524 - doe / 146097) / 365
  let y := yoe + era * 400
  let doy := doe - (365 * yoe + yoe / 4 - yoe / 100)
  let mp := (5 * doy + 2) / 153
  let d := doy - (153 * mp + 2) / 5 + 1
  let m := if mp < 10 then mp + 3 else mp - 9
  (if m ≤ 2 then y + 1 else y, m, d)

/-- The character list of
`datetime.fromtimestamp(us / 10**6, tz=timezone.utc).isoformat()` *without*
its trailing `+00:00` UTC offset: `YYYY-MM-DDTHH:MM:SS` followed by
`.ffffff` exactly when the microsecond field is non-zero. -/
def dateTimeChars (us : Nat) : List Char :=
  let secs := us / 1000000
  let micro := us % 1000000
  let days := secs / 86400
  let sod := secs % 86400
  let ymd := civilFromDays days
  padDigits 4 (natDigits ymd.1) ++ '-' :: padDigits 2 (natDigits ymd.2.1) ++
    '-' :: padDigits 2 (natDigits ymd.2.2) ++ 'T' :: padDigits 2 (natDigits (sod / 3600)) ++
    ':' :: padDigits 2 (natDigits (sod % 3600 / 60)) ++ ':' :: padDigits 2 (natDigits (sod % 60)) ++
    (if micro = 0 then [] else '.' :: padDigits 6 (natDigits micro))

/-- Python `s.replace(old, new)` scanning left to right over non-overlapping
occurrences, fuelled for kernel evaluation (`fuel = s.length` suffices; the
`old = []` corner never arises in the source, which replaces `"+00:00"`). -/
def pyReplaceAux (old new : List Char) : Nat → List Char → List Char
  | 0, s => s
  | _ + 1, [] => []
  | fuel + 1, c :: rest =>
    if old ≠ [] ∧ old.isPrefixOf (c :: rest) then
      new ++ pyReplaceAux old new fuel (List.drop (old.length - 1) rest)
    else
      c :: pyReplaceAux old new fuel rest

/-- Python `s.replace(old, new)`. -/
def pyReplace (s old new : String) : String :=
  ⟨pyReplaceAux old.data new.data s.data.length s.data⟩

/-- Model of `datetime.fromtimestamp(us / 10**6, tz=timezone.utc).isoformat()`:
the civil date-time text followed by the `+00:00` offset. -/
def isoformatUTC (us : Nat) : String :=
  ⟨dateTimeChars us⟩ ++ "+00:00"

/-- Model of `....isoformat().replace("+00:00", "Z")`, the timestamp shape used for both
`sent_at_utc` and `captured_at_utc` throughout the source. -/
def isoZ (us : Nat) : String :=
  pyReplace (isoformatUTC us) "+00:00" "Z"

/-- Model of `helpers.utc_now_iso()`: the current UTC instant in ISO-8601 with a `Z`
suffix; the wall clock is the explicit parameter `nowUs` (microseconds since
the epoch). -/
def utc_now_iso (nowUs : Nat) : String :=
  isoZ nowUs

/-- The canonical record `message_ingest.IngestedMessage`. `raw` holds the
residual Twitter fields (a dict modelled as an association list). -/
structure IngestedMessage where
  platform : String
  scope : String
  message_id : String
  username : String
  user_id : Option String
  sent_at_utc : String
  captured_at_utc : String
  text : String
  raw : Option (List (String × String)) := none
deriving Repr, DecidableEq

/-- Model of `message_ingest.normalize_twitch_oauth_token`; `startswith` is modelled by
list-prefix testing on the character list. -/
def normalize_twitch_oauth_token (token : String) : String :=
  if token.data = [] then token
  else if ("oauth:".data).isPrefixOf token.data then token
  else "oauth:" ++ token

/-- The named groups of a successful `TWITCH_PRIVMSG_RE` match. -/
structure PrivmsgMatch where
  tags : Option String
  nick : String
  channel : String
  message : String
deriving Repr, DecidableEq

/-- The `[A-Za-z0-9_]` character class of `TWITCH_PRIVMSG_RE`. -/
def isWordChar (c : Char) : Bool :=
  ('A' ≤ c && c ≤ 'Z') || ('a' ≤ c && c ≤ 'z') || ('0' ≤ c && c ≤ '9') || c == '_'

/-- The `(?P<message>.*)$` tail of `TWITCH_PRIVMSG_RE` under `re` semantics
(no DOTALL/MULTILINE): the remainder matches iff it contains no newline,
except that `$` also matches just before one final trailing newline. -/
def matchDotStarEnd (u : List Char) : Option (List Char) :=
  let v := if u.getLast? = some '\n' then u.dropLast else u
  if v.contains '\n' then none else some v

/-- Model of `TWITCH_PRIVMSG_RE.match` as a deterministic functional parser.  Each
regex piece (`[^ ]+`, `[^!]+`, `[A-Za-z0-9_]+`) is a greedy character run that
cannot cross its terminator, so Python's backtracking search has exactly this
one candidate per piece, and a line starting with `@` can only match through
the optional tags group (the alternative requires a leading `:`). -/
def matchPrivmsg (s : List Char) : Option PrivmsgMatch :=
  let tagStep : Option (Option (List Char) × List Char) :=
    match s with
    | '@' :: rest =>
      let tags := rest.takeWhile (fun c => c ≠ ' ')
      (match rest.dropWhile (fun c => c ≠ ' ') with
       | ' ' :: rest2 => if tags.isEmpty then none else some (some tags, rest2)
       | _ => none)
    | _ => some (none, s)
  match tagStep with
  | none => none
  | some (tags, r) =>
    match r with
    | ':' :: r1 =>
      let nick := r1.takeWhile (fun c => c ≠ '!')
      (match r1.dropWhile (fun c => c ≠ '!') with
       | '!' :: r2 =>
         if nick.isEmpty then none
         else
           let host := r2.takeWhile (fun c => c ≠ ' ')
           let r3 := r2.dropWhile (fun c => c ≠ ' ')
           if host.isEmpty then none
           else if (" PRIVMSG #".data).isPrefixOf r3 then
             let r4 := r3.drop (" PRIVMSG #".data).length
             let ch := r4.takeWhile isWordChar
             (match r4.dropWhile isWordChar with
              | ' ' :: ':' :: msg =>
                if ch.isEmpty then none
                else
                  (matchDotStarEnd msg).map fun m =>
                    { tags := tags.map fun t => (⟨t⟩ : String), nick := ⟨nick⟩,
                      channel := ⟨ch⟩, message := ⟨m⟩ }
              | _ => none)
           else none
       | _ => none)
    | _ => none

/-- Model of `message_ingest.parse_irc_tags`: semicolon-separated `key=value` or bare
`key` items, in insertion order (the source builds a dict by assignment). -/
def parse_irc_tags (tagText : Option String) : List (String × String) :=
  match tagText with
  | none => []
  | some s =>
    if s = "" then []
    else
      (splitOnChar ';' s.data).map fun item =>
        match splitOnFirst '=' item with
        | some kv => ((⟨kv.1⟩ : String), (⟨kv.2⟩ : String))
        | none => ((⟨item⟩ : String), "")

/-- Lookup in a dict built by repeated assignment: the last binding wins. -/
def dictGet (l : List (String × String)) (k : String) : Option String :=
  (l.reverse.find? (fun p => p.1 == k)).map (fun p => p.2)

/-- The synthetic Twitch message id
`f"twitch-{channel}-{sent_ts_ms or int(time.time() * 1000)}-{nick}"`. -/
def syntheticTwitchId (channel : String) (sent_ts_ms : Option String) (nowUs : Nat)
    (nick : String) : String :=
  "twitch-" ++ channel ++ "-" ++ pyOrStr sent_ts_ms (natStr (nowUs / 1000)) ++ "-" ++ nick

/-- Model of `message_ingest.parse_twitch_privmsg`.  The wall clock the source reads
through `utc_now_iso()` and `time.time()` is the explicit `nowUs` parameter
(one instant per invocation; the source's at-most-three reads happen within
microseconds of each other). -/
def parse_twitch_privmsg (line expected_channel : String) (nowUs : Nat) :
    Option IngestedMessage :=
  match matchPrivmsg (pyStrip line.data) with
  | none => none
  | some m =>
    if pyLowerStr m.channel ≠ pyLowerStr expected_channel then none
    else
      let channel := pyLowerStr m.channel
      let tags := parse_irc_tags m.tags
      let nick := m.nick
      let text := pyStripStr m.message
      let username := pyOrStr (dictGet tags "display-name") nick
      let user_id := pyOrNone (dictGet tags "user-id")
      let sent_ts_ms := dictGet tags "tmi-sent-ts"
      let sent_at_utc :=
        match sent_ts_ms with
        | some s => if pyDigits s then isoZ (digitsToNat s * 1000) else utc_now_iso nowUs
        | none => utc_now_iso nowUs
      let message_id := pyOrStr (dictGet tags "id") (syntheticTwitchId channel sent_ts_ms nowUs nick)
      some {
        platform := "twitch"
        scope := "channel:" ++ channel
        message_id := message_id
        username := username
        user_id := user_id
        sent_at_utc := sent_at_utc
        captured_at_utc := utc_now_iso nowUs
        text := text
      }

/-- The sort key comparison used by every `sort(key=lambda m: m.sent_at_utc)`
in the source (Python string `<=` is lexicographic on code points, as is
`String.le`). -/
def sentLe (a b : IngestedMessage) : Bool :=
  decide (a.sent_at_utc ≤ b.sent_at_utc)

/-- Model of `list.sort(key=lambda m: m.sent_at_utc)` / `sorted(..., key=...)`:
a stable sort by `sent_at_utc`, modelled by the stable `List.mergeSort`. -/
def sortBySent (l : List IngestedMessage) : List IngestedMessage :=
  l.mergeSort sentLe

/-- The ordering invariant: pairwise non-decreasing in `sent_at_utc`. -/
def SortedBySent (l : List IngestedMessage) : Prop :=
  l.Pairwise (fun a b => a.sent_at_utc ≤ b.sent_at_utc)

/-- A tweet object of the Twitter API JSON.  The five fields named in
`TWITTER_DUPLICATE_RAW_FIELDS` are explicit (absent keys are `none`; present
values are strings in the API); `extras` holds the residual key/value pairs,
which is exactly the dict comprehension in `extract_twitter_raw_extras`. -/
structure RawTweet where
  id : Option String := none
  author_id : Option String := none
  created_at : Option String := none
  text : Option String := none
  conversation_id : Option String := none
  extras : List (String × String) := []
deriving Repr, DecidableEq

/-- A user object from the `includes.users` expansion. -/
structure RawUser where
  id : Option String := none
  username : Option String := none
deriving Repr, DecidableEq

/-- Model of `message_ingest.extract_twitter_raw_extras`: the residual fields, or
`None` when there are none (`extras or None`). -/
def extract_twitter_raw_extras (tweet : RawTweet) : Option (List (String × String)) :=
  if tweet.extras.isEmpty then none else some tweet.extras

/-- The key of `users_by_id = {str(user.get("id")): user for user in users}`:
Python renders an absent id as the string `"None"`. -/
def userKey (u : RawUser) : String :=
  match u.id with
  | some s => s
  | none => "None"

/-- Model of `users_by_id.get(k)` (dict comprehension: the last user with a given key
wins). -/
def usersById (users : List RawUser) (k : String) : Option RawUser :=
  ((users.map (fun u => (userKey u, u))).reverse.find? (fun p => p.1 == k)).map (fun p => p.2)

/-- Model of `users_by_id.get(author_id, {}).get("username") or author_id or "unknown"`. -/
def resolveUsername (users : List RawUser) (author_id : String) : String :=
  pyOrStr ((usersById users author_id).bind RawUser.username)
    (pyOrStr (some author_id) "unknown")

/-- The body of the `for tweet in payload.get("data", [])` loop of
`fetch_twitter_thread_messages`: one raw tweet to an `IngestedMessage`. -/
def twitterTweetMessage (conversation_id : String) (users : List RawUser) (nowUs : Nat)
    (tweet : RawTweet) : IngestedMessage :=
  let author_id := tweet.author_id.getD ""
  { platform := "twitter"
    scope := "conversation_id:" ++ conversation_id
    message_id := tweet.id.getD ""
    username := resolveUsername users author_id
    user_id := pyOrNone (some author_id)
    sent_at_utc := tweet.created_at.getD (utc_now_iso nowUs)
    captured_at_utc := utc_now_iso nowUs
    text := pyStripStr (tweet.text.getD "")
    raw := extract_twitter_raw_extras tweet }

/-- One page of the recent-search response: `payload.get("data", [])`,
`payload.get("includes", {}).get("users", [])` and
`payload.get("meta", {}).get("next_token")`. -/
structure TwitterPage where
  data : List RawTweet := []
  users : List RawUser := []
  next_token : Option String := none
deriving Repr, DecidableEq

/-- The page loop of `fetch_twitter_thread_messages`: up to `max(1, pages)`
requests, stopping early when a page carries no `next_token`.  `responses` is
the successive successful page payloads the server returns (HTTP 429 and other
non-2xx responses raise and produce no message list, so they are outside this
success-path model; an exhausted `responses` models the deadline of the trace). -/
def fetchTwitterPages (conversation_id : String) (nowUs : Nat) :
    Nat → List TwitterPage → List IngestedMessage
  | 0, _ => []
  | _ + 1, [] => []
  | n + 1, page :: rest =>
    page.data.map (twitterTweetMessage conversation_id page.users nowUs) ++
      (match page.next_token with
       | none => []
       | some _ => fetchTwitterPages conversation_id nowUs n rest)

/-- Model of `message_ingest.fetch_twitter_thread_messages`.  `bearer_token`,
`max_results` (clamped into 10..100), `since_id` and `timeout` only shape the
outbound request, never the mapping from responses to messages, so they are
inert parameters here; the final `messages.sort(key=lambda m: m.sent_at_utc)`
is `sortBySent`. -/
def fetch_twitter_thread_messages (conversation_id bearer_token : String)
    (max_results pages : Int) (since_id : Option String) (timeout : Int)
    (responses : List TwitterPage) (nowUs : Nat) : List IngestedMessage :=
  sortBySent (fetchTwitterPages conversation_id nowUs (max 1 pages).toNat responses)

/-- The single-tweet lookup body: `payload.get("data")` and
`payload.get("includes", {}).get("users", [])`. -/
structure TweetLookupBody where
  data : Option RawTweet := none
  users : List RawUser := []
deriving Repr, DecidableEq

/-- An HTTP response to the single-tweet lookup; `body` is what `.json()`
would yield. -/
structure HttpResponse where
  status : Nat
  body : TweetLookupBody := {}
deriving Repr, DecidableEq

/-- Model of `message_ingest.fetch_twitter_tweet_by_id`: a 404 yields no message
*before* `raise_for_status`; any other 4xx/5xx raises (modelled as
`Except.error` carrying the status); `if not tweet` yields no message. -/
def fetch_twitter_tweet_by_id (tweet_id bearer_token : String) (timeout : Int)
    (resp : HttpResponse) (nowUs : Nat) : Except Nat (Option IngestedMessage) :=
  if resp.status = 404 then .ok none
  else if 400 ≤ resp.status ∧ resp.status < 600 then .error resp.status
  else
    match resp.body.data with
    | none => .ok none
    | some tweet =>
      let author_id := tweet.author_id.getD ""
      let conversation_id := tweet.conversation_id.getD tweet_id
      .ok (some {
        platform := "twitter"
        scope := "conversation_id:" ++ conversation_id
        message_id := tweet.id.getD ""
        username := resolveUsername resp.body.users author_id
        user_id := pyOrNone (some author_id)
        sent_at_utc := tweet.created_at.getD (utc_now_iso nowUs)
        captured_at_utc := utc_now_iso nowUs
        text := pyStripStr (tweet.text.getD "")
        raw := extract_twitter_raw_extras tweet })

/-- Model of `message_ingest.ensure_root_tweet_present`.  The set comprehension
`{m.message_id for m in messages}` with `in` is membership of the id list. -/
def ensure_root_tweet_present (messages : List IngestedMessage)
    (root_tweet : Option IngestedMessage) : List IngestedMessage :=
  match root_tweet with
  | none => messages
  | some root =>
    if messages.any (fun m => m.message_id == root.message_id) then messages
    else sortBySent (messages ++ [root])

/-- One pass of the Twitch receive loop: the value `sock.recv` produced at one
iteration, together with the `time.time()` reading of that iteration's loop
condition (also used as the clock for any messages parsed from the chunk).
`chunk = none` models a `socket.timeout` (the `continue` branch). -/
structure TwitchRecvEvent where
  nowUs : Nat
  chunk : Option String
deriving Repr, DecidableEq

/-- The per-line body of the inner `while "\r\n" in buffer` loop: empty lines
are skipped, `PING` lines are answered with `PONG` on the socket (pure I/O,
no message) and every other line goes through `parse_twitch_privmsg`. -/
def handleIrcLine (channel : String) (nowUs : Nat) (msgs : List IngestedMessage)
    (line : List Char) : List IngestedMessage :=
  if line.isEmpty then msgs
  else if ("PING ".data).isPrefixOf line then msgs
  else
    match parse_twitch_privmsg ⟨line⟩ channel nowUs with
    | some m => msgs ++ [m]
    | none => msgs

/-- The inner `while "\r\n" in buffer: line, buffer = buffer.split("\r\n", 1)`
loop, fuelled for kernel evaluation (each split consumes at least the two
separator characters, so `fuel = buffer.length` always suffices). -/
def processBufferLines (channel : String) (nowUs : Nat) :
    Nat → List Char → List IngestedMessage → List Char × List IngestedMessage
  | 0, buffer, msgs => (buffer, msgs)
  | fuel + 1, buffer, msgs =>
    match splitOnFirstSeq ['\r', '\n'] buffer with
    | none => (buffer, msgs)
    | some p => processBufferLines channel nowUs fuel p.2 (handleIrcLine channel nowUs msgs p.1)

/-- The outer `while time.time() < deadline and len(messages) < max_messages`
receive loop of `capture_twitch_chat_messages`.  When the event trace is
exhausted the loop is left as the deadline passes (only timeouts follow). -/
def captureLoop (channel : String) (deadlineUs : Nat) (max_messages : Int) :
    List TwitchRecvEvent → List Char → List IngestedMessage → List IngestedMessage
  | [], _, msgs => msgs
  | ev :: evs, buffer, msgs =>
    if ev.nowUs < deadlineUs ∧ (msgs.length : Int) < max_messages then
      match ev.chunk with
      | none => captureLoop channel deadlineUs max_messages evs buffer msgs
      | some chunk =>
        if chunk = "" then captureLoop channel deadlineUs max_messages evs buffer msgs
        else
          let p := processBufferLines channel ev.nowUs (buffer ++ chunk.data).length
            (buffer ++ chunk.data) msgs
          captureLoop channel deadlineUs max_messages evs p.1 p.2
    else msgs

/-- Model of `message_ingest.capture_twitch_chat_messages`.  `t0Us` is the `time.time()`
reading taken when the deadline is computed; `events` is the socket's receive
trace.  `oauth_token` (normalized), `bot_username` and the socket timeout only
drive the connection handshake, never the returned list. -/
def capture_twitch_chat_messages (channel oauth_token bot_username : String)
    (duration_seconds max_messages : Int) (t0Us : Nat)
    (events : List TwitchRecvEvent) : List IngestedMessage :=
  let chan := pyLowerStr ⟨channel.data.dropWhile (fun c => c = '#')⟩
  let _tok := normalize_twitch_oauth_token oauth_token
  let deadlineUs := t0Us + (max 1 duration_seconds).toNat * 1000000
  captureLoop chan deadlineUs max_messages events [] []

/-- The `meta` object of `build_twitter_audit_payload`. -/
structure AuditMeta where
  source : String
  conversation_id : String
  since_id : Option String
  pages_requested : Int
  max_results_per_page : Int
  tweet_count : Nat
  reply_count : Nat
  captured_at_utc : String
deriving Repr, DecidableEq

/-- Model of `asdict(main_message)` with the extra `"replies"` key attached. -/
structure MainPayload where
  message : IngestedMessage
  replies : Option (List IngestedMessage)
deriving Repr, DecidableEq

/-- The audit document `build_twitter_audit_payload` returns. -/
structure AuditPayload where
  meta : AuditMeta
  Main : Option MainPayload
deriving Repr, DecidableEq

/-- The `main_message` selection of `build_twitter_audit_payload`:
`next((m for m in ordered if m.message_id == conversation_id),
ordered[0] if ordered else None)`. -/
def twitterMainMessage (conversation_id : String) (ordered : List IngestedMessage) :
    Option IngestedMessage :=
  match ordered.find? (fun m => m.message_id == conversation_id) with
  | some m => some m
  | none => ordered.head?

/-- The `reply_messages` comprehension of `build_twitter_audit_payload`: the
ordered messages whose id differs from the main message's id (empty when no
main message exists). -/
def twitterReplyMessages (ordered : List IngestedMessage)
    (main_message : Option IngestedMessage) : List IngestedMessage :=
  match main_message with
  | some mm => ordered.filter (fun m => m.message_id != mm.message_id)
  | none => []

/-- Model of `message_ingest.build_twitter_audit_payload`.
`[...] if reply_messages else None` sends the empty reply list to `none`. -/
def build_twitter_audit_payload (conversation_id : String)
    (messages : List IngestedMessage) (since_id : Option String)
    (pages max_results : Int) (nowUs : Nat) : AuditPayload :=
  let ordered_messages := sortBySent messages
  let main_message := twitterMainMessage conversation_id ordered_messages
  let reply_messages := twitterReplyMessages ordered_messages main_message
  { meta := {
      source := "twitter-thread"
      conversation_id := conversation_id
      since_id := since_id
      pages_requested := pages
      max_results_per_page := max_results
      tweet_count := messages.length
      reply_count := reply_messages.length
      captured_at_utc := utc_now_iso nowUs }
    Main := main_message.map fun mm =>
      { message := mm
        replies := if reply_messages.isEmpty then none else some reply_messages } }

/-! Infrastructure lemmas. -/

theorem digitChar_isDigit (n : Nat) : (digitChar n).isDigit = true := by
  unfold digitChar
  split <;> decide

theorem natDigitsAux_isDigit :
    ∀ (fuel n : Nat) (acc : List Char), (∀ c ∈ acc, c.isDigit = true) →
      ∀ c ∈ natDigitsAux fuel n acc, c.isDigit = true := by
  intro fuel
  induction fuel with
  | zero =>
    intro n acc hacc c hc
    rw [natDigitsAux] at hc
    rcases List.mem_cons.1 hc with rfl | hmem
    · exact digitChar_isDigit n
    · exact hacc c hmem
  | succ f ih =>
    intro n acc hacc c hc
    rw [natDigitsAux] at hc
    split at hc
    · rcases List.mem_cons.1 hc with rfl | hmem
      · exact digitChar_isDigit n
      · exact hacc c hmem
    · refine ih (n / 10) (digitChar n :: acc) ?_ c hc
      intro d hd
      rcases List.mem_cons.1 hd with rfl | hmem
      · exact digitChar_isDigit n
      · exact hacc d hmem

theorem natDigits_isDigit (n : Nat) : ∀ c ∈ natDigits n, c.isDigit = true :=
  natDigitsAux_isDigit n n [] (by intro c hc; cases hc)

theorem padDigits_isDigit (w : Nat) (ds : List Char)
    (hds : ∀ c ∈ ds, c.isDigit = true) : ∀ c ∈ padDigits w ds, c.isDigit = true := by
  intro c hc
  rcases List.mem_append.1 hc with hrep | hmem
  · rw [List.eq_of_mem_replicate hrep]; decide
  · exact hds c hmem

theorem dateTimeChars_no_plus (us : Nat) : ∀ c ∈ dateTimeChars us, c ≠ '+' := by
  have hpad : ∀ (w n : Nat) (c : Char), c ∈ padDigits w (natDigits n) → c ≠ '+' := by
    intro w n c hc he
    have := padDigits_isDigit w (natDigits n) (natDigits_isDigit n) c hc
    rw [he] at this
    exact absurd this (by decide)
  intro c hc
  unfold dateTimeChars at hc
  simp only [List.mem_append, List.mem_cons] at hc
  rcases hc with ((((((h | rfl | h) | rfl | h) | rfl | h) | rfl | h) | rfl | h) | hifc)
  · exact hpad _ _ c h
  · decide
  · exact hpad _ _ c h
  · decide
  · exact hpad _ _ c h
  · decide
  · exact hpad _ _ c h
  · decide
  · exact hpad _ _ c h
  · decide
  · exact hpad _ _ c h
  · split at hifc
    · cases hifc
    · rcases List.mem_cons.1 hifc with rfl | h
      · decide
      · exact hpad _ _ c h

theorem pyReplaceAux_nil (old new : List Char) (fuel : Nat) :
    pyReplaceAux old new fuel [] = [] := by
  cases fuel <;> rfl

theorem pyReplaceAux_append (a : Char) (tl new : List Char) :
    ∀ (t u : List Char) (fuel : Nat), t.length + u.length ≤ fuel → (∀ c ∈ t, c ≠ a) →
      pyReplaceAux (a :: tl) new fuel (t ++ u) =
        t ++ pyReplaceAux (a :: tl) new (fuel - t.length) u := by
  intro t
  induction t with
  | nil =>
    intro u fuel hfuel hmem
    simp
  | cons c t ih =>
    intro u fuel hfuel hmem
    cases fuel with
    | zero => simp at hfuel
    | succ f =>
      have hca : c ≠ a := hmem c (List.mem_cons_self c t)
      have hf : t.length + u.length ≤ f := by
        simp only [List.length_cons] at hfuel
        omega
      have hstep : pyReplaceAux (a :: tl) new (f + 1) (c :: (t ++ u)) =
          c :: pyReplaceAux (a :: tl) new f (t ++ u) := by
        rw [pyReplaceAux, if_neg]
        rintro ⟨-, hp⟩
        have : (a :: tl).isPrefixOf (c :: (t ++ u)) = false := by
          simp [List.isPrefixOf, Ne.symm hca]
        rw [this] at hp
        cases hp
      rw [List.cons_append, hstep,
        ih u f hf (fun d hd => hmem d (List.mem_cons_of_mem c hd))]
      simp [Nat.succ_sub_succ]

theorem isoZ_eq (us : Nat) : isoZ us = ⟨dateTimeChars us ++ ['Z']⟩ := by
  have key : ∀ s : List Char, (∀ c ∈ s, c ≠ '+') →
      pyReplaceAux "+00:00".data "Z".data (s ++ "+00:00".data).length (s ++ "+00:00".data)
        = s ++ ['Z'] := by
    intro s hs
    have h := pyReplaceAux_append '+' "00:00".data "Z".data s "+00:00".data
      ((s ++ "+00:00".data).length) (by simp) hs
    calc pyReplaceAux "+00:00".data "Z".data (s ++ "+00:00".data).length (s ++ "+00:00".data)
        = s ++ pyReplaceAux ('+' :: "00:00".data) "Z".data
            ((s ++ "+00:00".data).length - s.length) "+00:00".data := h
      _ = s ++ ['Z'] := by
          congr 1
          have h6 : (s ++ "+00:00".data).length - s.length = 6 := by simp
          rw [h6]
          decide
  exact congrArg String.mk (key (dateTimeChars us) (dateTimeChars_no_plus us))

theorem isoZ_endsZ (us : Nat) : (isoZ us).data.getLast? = some 'Z' := by
  rw [isoZ_eq]
  exact List.getLast?_concat _

theorem sentLe_trans : ∀ a b c : IngestedMessage, sentLe a b → sentLe b c → sentLe a c := by
  intro a b c hab hbc
  simp only [sentLe, decide_eq_true_eq] at *
  exact le_trans hab hbc

theorem sentLe_total : ∀ a b : IngestedMessage, sentLe a b || sentLe b a := by
  intro a b
  simp only [sentLe]
  rcases le_total a.sent_at_utc b.sent_at_utc with h | h <;> simp [h]

theorem sortBySent_sorted (l : List IngestedMessage) : SortedBySent (sortBySent l) := by
  have h := List.sorted_mergeSort sentLe_trans sentLe_total l
  exact h.imp (fun {a b} hab => by simpa [sentLe] using hab)

theorem sortBySent_perm (l : List IngestedMessage) : List.Perm (sortBySent l) l :=
  List.mergeSort_perm l sentLe

/-! Example records, taken from the repository's unit tests. -/

/-- The root tweet of `test_message_ingest.py`. -/
def exRoot : IngestedMessage :=
  { platform := "twitter", scope := "conversation_id:100", message_id := "100",
    username := "root_user", user_id := some "1",
    sent_at_utc := "2026-02-13T12:00:00Z", captured_at_utc := "2026-02-13T12:00:02Z",
    text := "root", raw := none }

/-- The reply tweet of `test_message_ingest.py`. -/
def exReply : IngestedMessage :=
  { platform := "twitter", scope := "conversation_id:100", message_id := "101",
    username := "reply_user", user_id := some "2",
    sent_at_utc := "2026-02-13T12:00:01Z", captured_at_utc := "2026-02-13T12:00:02Z",
    text := "reply", raw := none }

/-! Claim theorems. -/

/-- Claim C9. `normalize_twitch_oauth_token("abc") = "oauth:abc"`,
`normalize_twitch_oauth_token("oauth:abc") = "oauth:abc"`, and applying
`normalize_twitch_oauth_token` twice gives the same result as applying it
once, for every token string. -/
theorem C9_normalize_oauth_examples_and_idempotent :
    normalize_twitch_oauth_token "abc" = "oauth:abc" ∧
    normalize_twitch_oauth_token "oauth:abc" = "oauth:abc" ∧
    ∀ token : String,
      normalize_twitch_oauth_token (normalize_twitch_oauth_token token)
        = normalize_twitch_oauth_token token := by
  refine ⟨by decide, by decide, ?_⟩
  intro token
  by_cases h0 : token.data = []
  · unfold normalize_twitch_oauth_token
    simp [h0]
  · by_cases hp : ("oauth:".data).isPrefixOf token.data
    · unfold normalize_twitch_oauth_token
      simp [h0, hp]
    · have h1 : normalize_twitch_oauth_token token = "oauth:" ++ token := by
        unfold normalize_twitch_oauth_token
        simp [h0, hp]
      rw [h1]
      have hd : ("oauth:" ++ token).data = "oauth:".data ++ token.data :=
        String.data_append _ _
      have hne : ¬ ("oauth:" ++ token).data = [] := by
        rw [hd]
        simp
      have hpre : ("oauth:".data).isPrefixOf ("oauth:" ++ token).data = true := by
        rw [hd]
        exact List.isPrefixOf_iff_prefix.2 (List.prefix_append _ _)
      unfold normalize_twitch_oauth_token
      simp [hne, hpre]

/-- Claim C8. For every tweet id, whenever the single-tweet lookup receives an
HTTP 404 response, `fetch_twitter_tweet_by_id` returns no message
(`Except.ok none`) and raises no error, whatever the response body. -/
theorem C8_tweet_lookup_404_yields_none (tweet_id bearer_token : String) (timeout : Int)
    (body : TweetLookupBody) (nowUs : Nat) :
    fetch_twitter_tweet_by_id tweet_id bearer_token timeout ⟨404, body⟩ nowUs
      = Except.ok none := by
  rfl

/-- Claim C10. On the empty message list `build_twitter_audit_payload` does not
fail (the `ordered_messages[0]` fallback is guarded by
`if ordered_messages else None`, modelled by `head?`) and returns a payload
with `Main = null`, `meta.tweet_count = 0` and `meta.reply_count = 0`. -/
theorem C10_empty_messages_payload (conversation_id : String) (since_id : Option String)
    (pages max_results : Int) (nowUs : Nat) :
    (build_twitter_audit_payload conversation_id [] since_id pages max_results nowUs).Main
        = none ∧
    (build_twitter_audit_payload conversation_id [] since_id pages max_results
        nowUs).meta.tweet_count = 0 ∧
    (build_twitter_audit_payload conversation_id [] since_id pages max_results
        nowUs).meta.reply_count = 0 := by
  refine ⟨?_, ?_, ?_⟩ <;>
    simp [build_twitter_audit_payload, sortBySent, twitterMainMessage, twitterReplyMessages]

/-- Claim C6. For every message list and every resolved root tweet: if the
root's `message_id` is absent from the list, `ensure_root_tweet_present`
returns a list of length input+1 that is sorted by `sent_at_utc`; if the
root's `message_id` is already present, the returned list has unchanged
length. -/
theorem C6_ensure_root_length_and_sorted (messages : List IngestedMessage)
    (root : IngestedMessage) :
    (root.message_id ∉ messages.map IngestedMessage.message_id →
      (ensure_root_tweet_present messages (some root)).length = messages.length + 1 ∧
      SortedBySent (ensure_root_tweet_present messages (some root))) ∧
    (root.message_id ∈ messages.map IngestedMessage.message_id →
      (ensure_root_tweet_present messages (some root)).length = messages.length) := by
  have hany : (messages.any fun m => m.message_id == root.message_id) = true ↔
      root.message_id ∈ messages.map IngestedMessage.message_id := by
    simp [List.any_eq_true, List.mem_map, beq_iff_eq]
  constructor
  · intro habs
    have hneg : ¬ (messages.any fun m => m.message_id == root.message_id) = true :=
      fun h => habs (hany.1 h)
    simp only [ensure_root_tweet_present]
    rw [if_neg hneg]
    refine ⟨?_, sortBySent_sorted _⟩
    calc (sortBySent (messages ++ [root])).length
        = (messages ++ [root]).length := (sortBySent_perm _).length_eq
      _ = messages.length + 1 := by simp
  · intro hmem
    simp only [ensure_root_tweet_present]
    rw [if_pos (hany.2 hmem)]

/-- Witness for **C6** at the repository's own unit-test input: the root is
absent from `[exReply]` (first branch) and present in `[exRoot]` (second). -/
theorem C6_ensure_root_length_and_sorted_witness :
    ((ensure_root_tweet_present [exReply] (some exRoot)).length = 2 ∧
      SortedBySent (ensure_root_tweet_present [exReply] (some exRoot))) ∧
    (ensure_root_tweet_present [exRoot] (some exRoot)).length = 1 :=
  ⟨(C6_ensure_root_length_and_sorted [exReply] exRoot).1 (by decide),
   (C6_ensure_root_length_and_sorted [exRoot] exRoot).2 (by decide)⟩

/-- A receive trace delivering the same fully-tagged PRIVMSG line twice
(identical `id` tag), as a Twitch server may on reconnection/duplication. -/
def dupIdEvents : List TwitchRecvEvent :=
  [⟨0, some "@id=m1 :a!u@h PRIVMSG #chan :one\r\n@id=m1 :a!u@h PRIVMSG #chan :one\r\n"⟩]

/-- Claim C1 (counterexample). A Twitch capture run whose trace repeats a
`(scope, message_id)` pair hands both records to output: no deduplication
happens before the return.  This refutes "at most one message per
`message_id` within each scope ... deduplicated before output". -/
theorem C1_counterexample_duplicates_survive :
    (capture_twitch_chat_messages "chan" "token" "bot" 60 500 0 dupIdEvents).map
        (fun m => (m.scope, m.message_id))
      = [("channel:chan", "m1"), ("channel:chan", "m1")] ∧
    ¬ ((capture_twitch_chat_messages "chan" "token" "bot" 60 500 0 dupIdEvents).map
        (fun m => (m.scope, m.message_id))).Nodup := by
  refine ⟨by decide, by decide⟩

/-- Claim C1 (amended). No deduplication pass exists; duplicate
`(scope, message_id)` pairs among fetched or captured records are emitted
as-is.  The only uniqueness safeguard in the code is that
`ensure_root_tweet_present` skips inserting the root tweet when its
`message_id` is already present, so the merge step never *introduces* a
duplicate `message_id`: if the fetched list has pairwise-distinct
`message_id`s, so does the merged list. -/
theorem C1_amended_merge_preserves_distinct_ids (messages : List IngestedMessage)
    (root_tweet : Option IngestedMessage)
    (h : (messages.map IngestedMessage.message_id).Nodup) :
    ((ensure_root_tweet_present messages root_tweet).map
      IngestedMessage.message_id).Nodup := by
  match root_tweet with
  | none => exact h
  | some root =>
    simp only [ensure_root_tweet_present]
    by_cases hc : (messages.any fun m => m.message_id == root.message_id) = true
    · rw [if_pos hc]
      exact h
    · rw [if_neg hc]
      have hperm : List.Perm ((sortBySent (messages ++ [root])).map IngestedMessage.message_id)
          ((messages ++ [root]).map IngestedMessage.message_id) :=
        (sortBySent_perm (messages ++ [root])).map _
      refine hperm.nodup_iff.2 ?_
      have hnotmem : root.message_id ∉ messages.map IngestedMessage.message_id := by
        intro hmem
        apply hc
        rcases List.mem_map.1 hmem with ⟨m, hm, he⟩
        simp only [List.any_eq_true]
        exact ⟨m, hm, by simp [he]⟩
      rw [List.map_append]
      rw [List.nodup_append]
      exact ⟨h, List.nodup_singleton _, by simpa using hnotmem⟩

/-- Witness for **C1 (amended)**: merging the absent root into the unit-test
reply list keeps the ids pairwise distinct. -/
theorem C1_amended_merge_preserves_distinct_ids_witness :
    ((ensure_root_tweet_present [exReply] (some exRoot)).map
      IngestedMessage.message_id).Nodup :=
  C1_amended_merge_preserves_distinct_ids [exReply] (some exRoot) (by decide)

/-- A receive trace whose two PRIVMSG lines carry out-of-order `tmi-sent-ts`
tags (2000 ms then 1000 ms), as IRC delivery order is not timestamp order. -/
def outOfOrderEvents : List TwitchRecvEvent :=
  [⟨0, some "@tmi-sent-ts=2000 :a!u@h PRIVMSG #chan :x\r\n@tmi-sent-ts=1000 :a!u@h PRIVMSG #chan :y\r\n"⟩]

/-- Claim C2 (counterexample). Two of the three listed components can return a
list that is *not* non-decreasing in `sent_at_utc`: `ensure_root_tweet_present`
returns its input unchanged (here unsorted) when the root id is already
present, and `capture_twitch_chat_messages` appends in arrival order, which
the `tmi-sent-ts` timestamps need not follow. -/
theorem C2_counterexample_unsorted_returns :
    ¬ SortedBySent (ensure_root_tweet_present [exReply, exRoot] (some exReply)) ∧
    ¬ SortedBySent (capture_twitch_chat_messages "chan" "token" "bot" 60 500 0
        outOfOrderEvents) := by
  constructor
  · intro h
    have he : ensure_root_tweet_present [exReply, exRoot] (some exReply)
        = [exReply, exRoot] := by decide
    rw [he] at h
    simp only [SortedBySent, List.pairwise_cons] at h
    have hle : exReply.sent_at_utc ≤ exRoot.sent_at_utc :=
      h.1 exRoot (List.mem_cons_self _ _)
    rw [String.le_iff_toList_le] at hle
    exact absurd hle (by decide)
  · intro h
    have he : (capture_twitch_chat_messages "chan" "token" "bot" 60 500 0
        outOfOrderEvents).map IngestedMessage.sent_at_utc
        = ["1970-01-01T00:00:02Z", "1970-01-01T00:00:01Z"] := by decide
    have hm : ((capture_twitch_chat_messages "chan" "token" "bot" 60 500 0
        outOfOrderEvents).map IngestedMessage.sent_at_utc).Pairwise (· ≤ ·) :=
      List.pairwise_map.2 h
    rw [he] at hm
    simp only [List.pairwise_cons] at hm
    have hle : ("1970-01-01T00:00:02Z" : String) ≤ "1970-01-01T00:00:01Z" :=
      hm.1 _ (List.mem_cons_self _ _)
    rw [String.le_iff_toList_le] at hle
    exact absurd hle (by decide)

/-- Claim C2 (amended). `fetch_twitter_thread_messages` always returns a list
non-decreasing in `sent_at_utc`, and `ensure_root_tweet_present` preserves
that ordering (its insert branch re-sorts; its other branches return the
input unchanged).  `capture_twitch_chat_messages` returns messages in arrival
order, which need not be non-decreasing in `sent_at_utc`. -/
theorem C2_amended_sortedness :
    (∀ (conversation_id bearer_token : String) (max_results pages : Int)
        (since_id : Option String) (timeout : Int) (responses : List TwitterPage)
        (nowUs : Nat),
        SortedBySent (fetch_twitter_thread_messages conversation_id bearer_token
          max_results pages since_id timeout responses nowUs)) ∧
    (∀ (messages : List IngestedMessage) (root_tweet : Option IngestedMessage),
        SortedBySent messages →
        SortedBySent (ensure_root_tweet_present messages root_tweet)) := by
  constructor
  · intro conversation_id bearer_token max_results pages since_id timeout responses nowUs
    exact sortBySent_sorted _
  · intro messages root_tweet hsorted
    match root_tweet with
    | none => exact hsorted
    | some root =>
      simp only [ensure_root_tweet_present]
      by_cases hc : (messages.any fun m => m.message_id == root.message_id) = true
      · rw [if_pos hc]
        exact hsorted
      · rw [if_neg hc]
        exact sortBySent_sorted _

/-- Witness for **C2 (amended)**: the fetch of one concrete page is sorted,
and merging the root into the sorted unit-test list stays sorted. -/
theorem C2_amended_sortedness_witness :
    SortedBySent (fetch_twitter_thread_messages "100" "token" 100 1 none 20
      [{ data := [{ id := some "101", author_id := some "2",
                    created_at := some "2026-02-13T12:00:01Z", text := some "reply" }] }] 0) ∧
    SortedBySent (ensure_root_tweet_present [exReply] (some exRoot)) :=
  ⟨C2_amended_sortedness.1 "100" "token" 100 1 none 20 _ 0,
   C2_amended_sortedness.2 [exReply] (some exRoot) (by simp [SortedBySent])⟩

/-- The failing input for **C5**: a single received chunk carrying two
complete PRIVMSG lines while `max_messages = 1`. -/
def twoLineChunkEvents : List TwitchRecvEvent :=
  [⟨0, some ":a!u@h PRIVMSG #chan :one\r\n:b!u@h PRIVMSG #chan :two\r\n"⟩]

/-- Claim C5 (code bug). The loop condition does check both exit conditions
(deadline, quota) before every receive, but the inner line loop then parses
*every* complete line of the received chunk before the quota is re-checked,
so with `max_messages = 1` a two-line chunk yields a returned list of length
2 — exceeding the quota that the CLI documents as an "Upper bound on captured
messages". -/
theorem C5_quota_exceeded_within_final_chunk :
    (capture_twitch_chat_messages "chan" "token" "bot" 60 1 0
      twoLineChunkEvents).length = 2 := by
  decide

/-- The `message` group of `TWITCH_PRIVMSG_RE.match(line.strip())`: the raw
trailing payload of the line, *before* the `.strip()` the source applies to
it when building `text`. -/
def privmsgPayload (line : String) : Option String :=
  (matchPrivmsg (pyStrip line.data)).map PrivmsgMatch.message

/-- Claim C4 (counterexample). A valid PRIVMSG line on the expected channel
whose trailing payload carries a leading space: the parsed `text` is the
*trimmed* payload `"hi"`, not the exact payload `" hi"`.  This refutes
"`text` equals the trailing payload of the line exactly". -/
theorem C4_counterexample_text_is_trimmed :
    (parse_twitch_privmsg ":nick!u@h PRIVMSG #chan : hi" "chan" 0).isSome = true ∧
    (parse_twitch_privmsg ":nick!u@h PRIVMSG #chan : hi" "chan" 0).map
        IngestedMessage.text = some "hi" ∧
    privmsgPayload ":nick!u@h PRIVMSG #chan : hi" = some " hi" :=
  ⟨by decide, by decide, by decide⟩

/-- Claim C4 (amended). For every PRIVMSG line accepted for the expected
channel, the parsed `text` equals the whitespace-*trimmed* trailing payload of
the line, and `sent_at_utc` ends with the character `Z`. -/
theorem C4_amended_text_trimmed_sent_ends_Z (line expected_channel : String)
    (nowUs : Nat) (m : IngestedMessage)
    (h : parse_twitch_privmsg line expected_channel nowUs = some m) :
    m.text = pyStripStr ((privmsgPayload line).getD "") ∧
    m.sent_at_utc.data.getLast? = some 'Z' := by
  unfold parse_twitch_privmsg at h
  split at h
  · cases h
  · rename_i r hm
    split at h
    · cases h
    · simp only [Option.some.injEq] at h
      subst h
      constructor
      · show pyStripStr r.message = pyStripStr ((privmsgPayload line).getD "")
        unfold privmsgPayload
        rw [hm]
        rfl
      · show (match dictGet (parse_irc_tags r.tags) "tmi-sent-ts" with
            | some s => if pyDigits s then isoZ (digitsToNat s * 1000) else utc_now_iso nowUs
            | none => utc_now_iso nowUs).data.getLast? = some 'Z'
        cases dictGet (parse_irc_tags r.tags) "tmi-sent-ts" with
        | none => exact isoZ_endsZ nowUs
        | some s =>
          by_cases hd : pyDigits s = true
          · simp only [if_pos hd]
            exact isoZ_endsZ _
          · simp only [if_neg hd]
            exact isoZ_endsZ nowUs

/-- The message `parse_twitch_privmsg ":nick!u@h PRIVMSG #chan :hello" "chan" 0`
produces (no tags, so the synthetic id and the clock fallbacks are used). -/
def c4msg : IngestedMessage :=
  { platform := "twitch", scope := "channel:chan", message_id := "twitch-chan-0-nick",
    username := "nick", user_id := none, sent_at_utc := "1970-01-01T00:00:00Z",
    captured_at_utc := "1970-01-01T00:00:00Z", text := "hello", raw := none }

/-- Witness for **C4 (amended)** at a concrete accepted line. -/
theorem C4_amended_text_trimmed_sent_ends_Z_witness :
    c4msg.text = pyStripStr ((privmsgPayload ":nick!u@h PRIVMSG #chan :hello").getD "") ∧
    c4msg.sent_at_utc.data.getLast? = some 'Z' :=
  C4_amended_text_trimmed_sent_ends_Z ":nick!u@h PRIVMSG #chan :hello" "chan" 0 c4msg
    (by decide)

/-- Characterization of `parse_twitch_privmsg` on an accepted line: the
regex matched and the channel comparison passed. -/
theorem parse_twitch_privmsg_eq_some (line expected_channel : String) (nowUs : Nat)
    (r : PrivmsgMatch) (hm : matchPrivmsg (pyStrip line.data) = some r)
    (hch : ¬ pyLowerStr r.channel ≠ pyLowerStr expected_channel) :
    parse_twitch_privmsg line expected_channel nowUs = some
      { platform := "twitch"
        scope := "channel:" ++ pyLowerStr r.channel
        message_id := pyOrStr (dictGet (parse_irc_tags r.tags) "id")
          (syntheticTwitchId (pyLowerStr r.channel)
            (dictGet (parse_irc_tags r.tags) "tmi-sent-ts") nowUs r.nick)
        username := pyOrStr (dictGet (parse_irc_tags r.tags) "display-name") r.nick
        user_id := pyOrNone (dictGet (parse_irc_tags r.tags) "user-id")
        sent_at_utc :=
          match dictGet (parse_irc_tags r.tags) "tmi-sent-ts" with
          | some s => if pyDigits s then isoZ (digitsToNat s * 1000) else utc_now_iso nowUs
          | none => utc_now_iso nowUs
        captured_at_utc := utc_now_iso nowUs
        text := pyStripStr r.message
        raw := none } := by
  unfold parse_twitch_privmsg
  rw [hm]
  show (if pyLowerStr r.channel ≠ pyLowerStr expected_channel then none else _) = _
  rw [if_neg hch]

/-- Model of `parse_twitch_privmsg` rejects a line the regex does not match. -/
theorem parse_twitch_privmsg_eq_none_of_no_match (line expected_channel : String)
    (nowUs : Nat) (hm : matchPrivmsg (pyStrip line.data) = none) :
    parse_twitch_privmsg line expected_channel nowUs = none := by
  unfold parse_twitch_privmsg
  rw [hm]

/-- Model of `parse_twitch_privmsg` rejects a matched line on the wrong channel. -/
theorem parse_twitch_privmsg_eq_none_of_channel (line expected_channel : String)
    (nowUs : Nat) (r : PrivmsgMatch) (hm : matchPrivmsg (pyStrip line.data) = some r)
    (hch : pyLowerStr r.channel ≠ pyLowerStr expected_channel) :
    parse_twitch_privmsg line expected_channel nowUs = none := by
  unfold parse_twitch_privmsg
  rw [hm]
  show (if pyLowerStr r.channel ≠ pyLowerStr expected_channel then none else _) = _
  rw [if_pos hch]

/-- Claim C3 (counterexample). `parse_twitch_privmsg` reads the wall clock, so
two invocations with the same `(line, expected_channel)` arguments but one
second apart return different messages (`captured_at_utc`, and here also the
`sent_at_utc` and synthetic-id fallbacks, change).  This refutes "two
invocations with the same inputs produce equal results". -/
theorem C3_counterexample_clock_changes_result :
    parse_twitch_privmsg ":nick!u@h PRIVMSG #chan :hi" "chan" 0
      ≠ parse_twitch_privmsg ":nick!u@h PRIVMSG #chan :hi" "chan" 1000000 := by
  decide

/-- The fields of a parsed Twitch message that never depend on the clock. -/
def parseStableFields (m : IngestedMessage) :
    String × String × String × Option String × String × Option (List (String × String)) :=
  (m.platform, m.scope, m.username, m.user_id, m.text, m.raw)

/-- Whether the matched line carries a non-empty all-digit `tmi-sent-ts` tag
(the condition under which `sent_at_utc` ignores the clock). -/
def lineHasDigitTs (line : String) : Bool :=
  match matchPrivmsg (pyStrip line.data) with
  | none => false
  | some r =>
    match dictGet (parse_irc_tags r.tags) "tmi-sent-ts" with
    | none => false
    | some s => pyDigits s

/-- Whether the matched line carries a non-empty `id` tag (the condition
under which `message_id` ignores the clock). -/
def lineHasIdTag (line : String) : Bool :=
  match matchPrivmsg (pyStrip line.data) with
  | none => false
  | some r =>
    match dictGet (parse_irc_tags r.tags) "id" with
    | none => false
    | some s => s != ""

/-- Claim C3 (amended). `parse_twitch_privmsg` mutates no external state, but it
reads the wall clock; given the clock reading it is a pure function.  Whether
a line is accepted, and the `platform`, `scope`, `username`, `user_id`,
`text` and `raw` fields, are determined by `(line, expected_channel)` alone;
`sent_at_utc` is clock-independent exactly when the line carries a numeric
`tmi-sent-ts` tag, and `message_id` when it carries a non-empty `id` tag. -/
theorem C3_amended_clock_independence (line expected_channel : String) (t1 t2 : Nat) :
    (parse_twitch_privmsg line expected_channel t1).map parseStableFields
      = (parse_twitch_privmsg line expected_channel t2).map parseStableFields ∧
    (lineHasDigitTs line = true →
      (parse_twitch_privmsg line expected_channel t1).map IngestedMessage.sent_at_utc
        = (parse_twitch_privmsg line expected_channel t2).map IngestedMessage.sent_at_utc) ∧
    (lineHasIdTag line = true →
      (parse_twitch_privmsg line expected_channel t1).map IngestedMessage.message_id
        = (parse_twitch_privmsg line expected_channel t2).map IngestedMessage.message_id) := by
  cases hm : matchPrivmsg (pyStrip line.data) with
  | none =>
    rw [parse_twitch_privmsg_eq_none_of_no_match line expected_channel t1 hm,
      parse_twitch_privmsg_eq_none_of_no_match line expected_channel t2 hm]
    exact ⟨rfl, fun _ => rfl, fun _ => rfl⟩
  | some r =>
    by_cases hch : pyLowerStr r.channel ≠ pyLowerStr expected_channel
    · rw [parse_twitch_privmsg_eq_none_of_channel line expected_channel t1 r hm hch,
        parse_twitch_privmsg_eq_none_of_channel line expected_channel t2 r hm hch]
      exact ⟨rfl, fun _ => rfl, fun _ => rfl⟩
    · rw [parse_twitch_privmsg_eq_some line expected_channel t1 r hm hch,
        parse_twitch_privmsg_eq_some line expected_channel t2 r hm hch]
      refine ⟨rfl, ?_, ?_⟩
      · intro hts
        have hts2 : (match dictGet (parse_irc_tags r.tags) "tmi-sent-ts" with
            | none => false
            | some s => pyDigits s) = true := by
          have h0 := hts
          unfold lineHasDigitTs at h0
          rw [hm] at h0
          exact h0
        cases hd : dictGet (parse_irc_tags r.tags) "tmi-sent-ts" with
        | none => rw [hd] at hts2; cases hts2
        | some s =>
          rw [hd] at hts2
          have hts3 : pyDigits s = true := hts2
          simp only [Option.map_some']
          simp [hts3]
      · intro hid
        have hid2 : (match dictGet (parse_irc_tags r.tags) "id" with
            | none => false
            | some s => s != "") = true := by
          have h0 := hid
          unfold lineHasIdTag at h0
          rw [hm] at h0
          exact h0
        cases hd : dictGet (parse_irc_tags r.tags) "id" with
        | none => rw [hd] at hid2; cases hid2
        | some s =>
          rw [hd] at hid2
          have hne : ¬ s = "" := by simpa using (hid2 : (s != "") = true)
          simp only [Option.map_some']
          simp [pyOrStr, hne]

/-- The spec's end-to-end example line, fully tagged. -/
def c3Line : String :=
  "@display-name=SomeUser;id=msg-123;tmi-sent-ts=1700000000000;user-id=42 :someuser!x@x PRIVMSG #mychannel :hello world"

/-- Witness for **C3 (amended)** at the fully-tagged example line: with both
tags present, `sent_at_utc` and `message_id` agree across two clock readings
five seconds apart. -/
theorem C3_amended_clock_independence_witness :
    (parse_twitch_privmsg c3Line "mychannel" 0).map parseStableFields
      = (parse_twitch_privmsg c3Line "mychannel" 5000000).map parseStableFields ∧
    (parse_twitch_privmsg c3Line "mychannel" 0).map IngestedMessage.sent_at_utc
      = (parse_twitch_privmsg c3Line "mychannel" 5000000).map IngestedMessage.sent_at_utc ∧
    (parse_twitch_privmsg c3Line "mychannel" 0).map IngestedMessage.message_id
      = (parse_twitch_privmsg c3Line "mychannel" 5000000).map IngestedMessage.message_id :=
  ⟨(C3_amended_clock_independence c3Line "mychannel" 0 5000000).1,
   (C3_amended_clock_independence c3Line "mychannel" 0 5000000).2.1 (by decide),
   (C3_amended_clock_independence c3Line "mychannel" 0 5000000).2.2 (by decide)⟩

/-- Claim C7. For every non-empty message list, `build_twitter_audit_payload`
selects a main message; when messages with an id other than the main id
exist, `Main.replies` is a non-null list, ordered by `sent_at_utc`, whose
first element is an earliest non-main message of the input; when no such
messages exist, `Main.replies` is null and `meta.reply_count = 0`. -/
theorem C7_audit_replies_shape (conversation_id : String)
    (messages : List IngestedMessage) (since_id : Option String)
    (pages max_results : Int) (nowUs : Nat) (hne : messages ≠ []) :
    ∃ mp, (build_twitter_audit_payload conversation_id messages since_id pages
        max_results nowUs).Main = some mp ∧
      ((∃ m ∈ messages, m.message_id ≠ mp.message.message_id) →
        ∃ hd tl, mp.replies = some (hd :: tl) ∧ SortedBySent (hd :: tl) ∧
          hd ∈ messages ∧ hd.message_id ≠ mp.message.message_id ∧
          (∀ m ∈ messages, m.message_id ≠ mp.message.message_id →
            hd.sent_at_utc ≤ m.sent_at_utc)) ∧
      ((∀ m ∈ messages, m.message_id = mp.message.message_id) →
        mp.replies = none ∧
        (build_twitter_audit_payload conversation_id messages since_id pages
          max_results nowUs).meta.reply_count = 0) := by
  have hperm := sortBySent_perm messages
  have hsorted := sortBySent_sorted messages
  obtain ⟨mm, hmm⟩ : ∃ mm, twitterMainMessage conversation_id (sortBySent messages)
      = some mm := by
    unfold twitterMainMessage
    cases hf : (sortBySent messages).find? (fun m => m.message_id == conversation_id) with
    | some m => exact ⟨m, rfl⟩
    | none =>
      cases ho : sortBySent messages with
      | nil =>
        exfalso
        apply hne
        have hl := hperm.length_eq
        rw [ho] at hl
        exact List.length_eq_zero.1 hl.symm
      | cons a t => exact ⟨a, by simp⟩
  have hrs_eq : twitterReplyMessages (sortBySent messages) (some mm)
      = (sortBySent messages).filter (fun m => m.message_id != mm.message_id) := rfl
  have hMain : (build_twitter_audit_payload conversation_id messages since_id pages
        max_results nowUs).Main
      = some { message := mm,
               replies := if (twitterReplyMessages (sortBySent messages) (some mm)).isEmpty
                 then none
                 else some (twitterReplyMessages (sortBySent messages) (some mm)) } := by
    show (twitterMainMessage conversation_id (sortBySent messages)).map _ = _
    rw [hmm]
    rfl
  have hcount : (build_twitter_audit_payload conversation_id messages since_id pages
        max_results nowUs).meta.reply_count
      = (twitterReplyMessages (sortBySent messages)
          (twitterMainMessage conversation_id (sortBySent messages))).length := rfl
  refine ⟨_, hMain, ?_, ?_⟩
  · rintro ⟨m, hmmem, hmne⟩
    have hmem_rs : m ∈ (sortBySent messages).filter
        (fun m => m.message_id != mm.message_id) :=
      List.mem_filter.2 ⟨hperm.mem_iff.2 hmmem, bne_iff_ne.2 hmne⟩
    have hsorted_rs : SortedBySent ((sortBySent messages).filter
        (fun m => m.message_id != mm.message_id)) :=
      List.Pairwise.sublist (List.filter_sublist _) hsorted
    cases hrs0 : (sortBySent messages).filter (fun m => m.message_id != mm.message_id) with
    | nil =>
      rw [hrs0] at hmem_rs
      cases hmem_rs
    | cons hd tl =>
      refine ⟨hd, tl, ?_, ?_, ?_, ?_, ?_⟩
      · show (if (twitterReplyMessages (sortBySent messages) (some mm)).isEmpty
            then none else some (twitterReplyMessages (sortBySent messages) (some mm)))
            = some (hd :: tl)
        rw [hrs_eq, hrs0]
        rfl
      · rw [← hrs0]
        exact hsorted_rs
      · have : hd ∈ (sortBySent messages).filter (fun m => m.message_id != mm.message_id) := by
          rw [hrs0]
          exact List.mem_cons_self _ _
        exact hperm.mem_iff.1 (List.mem_filter.1 this).1
      · have : hd ∈ (sortBySent messages).filter (fun m => m.message_id != mm.message_id) := by
          rw [hrs0]
          exact List.mem_cons_self _ _
        exact bne_iff_ne.1 (List.mem_filter.1 this).2
      · intro m2 hm2mem hm2ne
        have hm2rs : m2 ∈ (sortBySent messages).filter
            (fun m => m.message_id != mm.message_id) :=
          List.mem_filter.2 ⟨hperm.mem_iff.2 hm2mem, bne_iff_ne.2 hm2ne⟩
        rw [hrs0] at hm2rs hsorted_rs
        rcases List.mem_cons.1 hm2rs with rfl | hm2tl
        · exact le_refl _
        · exact List.rel_of_pairwise_cons hsorted_rs hm2tl
  · intro hall
    have hrs_nil : (sortBySent messages).filter (fun m => m.message_id != mm.message_id)
        = [] := by
      rw [List.filter_eq_nil_iff]
      intro a ha
      have : a.message_id = mm.message_id := hall a (hperm.mem_iff.1 ha)
      simp [this]
    constructor
    · show (if (twitterReplyMessages (sortBySent messages) (some mm)).isEmpty
          then none else some (twitterReplyMessages (sortBySent messages) (some mm)))
          = none
      rw [hrs_eq, hrs_nil]
      rfl
    · rw [hcount, hmm, hrs_eq, hrs_nil]
      rfl

/-- Witness for **C7** at the repository's unit-test threads: a thread with
one reply (first branch) and a single-message thread (second branch). -/
theorem C7_audit_replies_shape_witness :
    (∃ mp, (build_twitter_audit_payload "100" [exReply, exRoot] none 1 100 0).Main
        = some mp ∧
      ((∃ m ∈ [exReply, exRoot], m.message_id ≠ mp.message.message_id) →
        ∃ hd tl, mp.replies = some (hd :: tl) ∧ SortedBySent (hd :: tl) ∧
          hd ∈ [exReply, exRoot] ∧ hd.message_id ≠ mp.message.message_id ∧
          (∀ m ∈ [exReply, exRoot], m.message_id ≠ mp.message.message_id →
            hd.sent_at_utc ≤ m.sent_at_utc)) ∧
      ((∀ m ∈ [exReply, exRoot], m.message_id = mp.message.message_id) →
        mp.replies = none ∧
        (build_twitter_audit_payload "100" [exReply, exRoot] none 1 100 0).meta.reply_count
          = 0)) ∧
    (∃ mp, (build_twitter_audit_payload "100" [exRoot] none 1 100 0).Main = some mp ∧
      ((∃ m ∈ [exRoot], m.message_id ≠ mp.message.message_id) →
        ∃ hd tl, mp.replies = some (hd :: tl) ∧ SortedBySent (hd :: tl) ∧
          hd ∈ [exRoot] ∧ hd.message_id ≠ mp.message.message_id ∧
          (∀ m ∈ [exRoot], m.message_id ≠ mp.message.message_id →
            hd.sent_at_utc ≤ m.sent_at_utc)) ∧
      ((∀ m ∈ [exRoot], m.message_id = mp.message.message_id) →
        mp.replies = none ∧
        (build_twitter_audit_payload "100" [exRoot] none 1 100 0).meta.reply_count = 0)) :=
  ⟨C7_audit_replies_shape "100" [exReply, exRoot] none 1 100 0 (by decide),
   C7_audit_replies_shape "100" [exRoot] none 1 100 0 (by decide)⟩
